import Mathlib

/-
Verification of the web-service transport, retry and offline-queue layer of the
moodleapp repository. The TypeScript sources are shallowly embedded: promise
settlement is represented by explicit outcome values, mutable provider state by
explicit state records, and the asynchronous interleaving relevant to the
claims by event lists over step functions.
-/

namespace Moodleapp

/-! ## JavaScript value model

The transport layer inspects the dynamic type and truthiness of response data.
A small inductive represents the response values that reach the handler of
CoreWSProvider.performPost: null, strings, numbers, booleans and objects.
JavaScript numbers are represented by integers here; none of the verified
claims depends on fractional values. An object is summarised by the three
aspects the handler reads: whether it has an exception field, whether it has a
debuginfo field, and its message field. -/

inductive JSValue where
  | null : JSValue
  | str (s : String) : JSValue
  | num (n : Int) : JSValue
  | bool (b : Bool) : JSValue
  | obj (hasException : Bool) (hasDebuginfo : Bool) (message : String) : JSValue
deriving DecidableEq

/-- The typeof operator: typeof null is the string object in JavaScript. -/
def jsTypeof : JSValue → String
  | .null => "object"
  | .str _ => "string"
  | .num _ => "number"
  | .bool _ => "boolean"
  | .obj _ _ _ => "object"

/-- JavaScript truthiness of the modelled values. -/
def jsTruthy : JSValue → Bool
  | .null => false
  | .str s => decide (s ≠ "")
  | .num n => decide (n ≠ 0)
  | .bool b => b
  | .obj _ _ _ => true

/-- Reads whether the field named exception is defined on a value: only
objects can carry it, on primitives the access yields undefined. -/
def hasExceptionField : JSValue → Bool
  | .obj e _ _ => e
  | _ => false

/-- Reads whether the field named debuginfo is defined on a value. -/
def hasDebuginfoField : JSValue → Bool
  | .obj _ d _ => d
  | _ => false

/-- Reads the message field of a value; undefined on primitives. -/
def jsMessage : JSValue → String
  | .obj _ _ m => m
  | _ => ""

/-! ## Errors of the WS layer -/

/-- Errors thrown by the WS transport: CoreError carries a message key, and
CoreWSError carries the full error payload returned by the server. -/
inductive WSCallError where
  | coreError (msg : String) : WSCallError
  | wsError (data : JSValue) : WSCallError
deriving DecidableEq

/-! ## Response treatment of performPost

Embeds the success handler of CoreWSProvider.performPost. The numeric
conversion applied to strings, the Number function of JavaScript, is kept as a
parameter numParse, where the none result stands for NaN; the handler only
tests the conversion for NaN. -/

/-- Embeds the type coercion performed by performPost when the dynamic type of
the response does not match typeExpected: strings are parsed as numbers when a
number is expected, the exact strings true and false are coerced when a boolean
is expected, and every other mismatch raises the invalid-response error. -/
def coerceType (numParse : String → Option Int) (typeExpected : String)
    (data : JSValue) : Except WSCallError JSValue :=
  if jsTypeof data ≠ typeExpected then
    match data with
    | .str s =>
      if typeExpected = "number" then
        match numParse s with
        | some n => .ok (.num n)
        | none => .error (.coreError "core.errorinvalidresponse")
      else if typeExpected = "boolean" then
        if s = "true" then .ok (.bool true)
        else if s = "false" then .ok (.bool false)
        else .error (.coreError "core.errorinvalidresponse")
      else .error (.coreError "core.errorinvalidresponse")
    | _ => .error (.coreError "core.errorinvalidresponse")
  else .ok data

/-- Embeds the success handler of CoreWSProvider.performPost: a falsy response
is replaced by a blank object when responseExpected is false, a falsy response
otherwise raises the server-connection error, then the type coercion runs, then
a payload with an exception field raises CoreWSError and one with a debuginfo
field raises a CoreError built from the message. -/
def performPostTreat (numParse : String → Option Int) (typeExpected : String)
    (responseExpected : Bool) (data0 : JSValue) : Except WSCallError JSValue :=
  let data := if !jsTruthy data0 && !responseExpected then JSValue.obj false false "" else data0
  if !jsTruthy data then .error (.coreError "core.serverconnection")
  else
    match coerceType numParse typeExpected data with
    | .error e => .error e
    | .ok d =>
      if hasExceptionField d then .error (.wsError d)
      else if hasDebuginfoField d then .error (.coreError ("Error. " ++ jsMessage d))
      else .ok d

/-! ## Integer parsing and the overload cooldown

The 429 handler of performPost computes the cooldown with parseInt on the
Retry-After header, radix 10, falling back to 5 through the or-else operator
on numbers, which replaces both NaN and 0 by the fallback. -/

/-- Embeds parseInt with radix 10 on a character list: leading whitespace is
skipped, an optional sign is read, then the leading digit run; the none result
stands for NaN. -/
def parseIntChars (cs : List Char) : Option Int :=
  let cs1 := cs.dropWhile (fun c => c = ' ' ∨ c = '\t' ∨ c = '\n' ∨ c = '\r')
  let signAndRest : Int × List Char :=
    match cs1 with
    | '-' :: r => (-1, r)
    | '+' :: r => (1, r)
    | r => (1, r)
  let ds := signAndRest.2.takeWhile Char.isDigit
  if ds.isEmpty then none
  else some (signAndRest.1 * (ds.foldl (fun acc c => acc * 10 + (c.toNat - 48)) 0 : Nat))

/-- Embeds parseInt applied to the value of headers.get, where a missing header
yields NaN. -/
def parseIntJS : Option String → Option Int
  | none => none
  | some s => parseIntChars s.data

/-- Embeds the cooldown assignment of the 429 branch of performPost: parseInt
of the Retry-After header or-else 5. The or-else operator on numbers picks the
fallback for NaN and also for 0, because 0 is falsy. -/
def computeRetryTimeout (header : Option String) : Int :=
  match parseIntJS header with
  | none => 5
  | some n => if n = 0 then 5 else n

/-- The cooldown as the specification words it: the Retry-After value whenever
the header parses, with the default of 5 only when the header is missing or
unparsable. Stated for comparison with computeRetryTimeout. -/
def claimedRetryCooldown (header : Option String) : Int :=
  match parseIntJS header with
  | none => 5
  | some n => n

/-! ## Retry queue state of CoreWSProvider

The provider keeps a FIFO list of retry calls and the active cooldown in
mutable fields; both are embedded as an explicit state record. Each queued
call records the deferred promise handed to its original caller; deferred
promises are identified by allocation order. -/

/-- PreSets of a WS call, with the optional fields of the source type. -/
structure CoreWSPreSets where
  siteUrl : String
  wsToken : String
  responseExpected : Option Bool
  typeExpected : Option String
deriving DecidableEq

/-- An entry of the retry queue: the data needed to replay a WS call plus the
identifier of the deferred promise returned to the original caller. -/
structure RetryCall where
  method : String
  siteUrl : String
  data : List (String × String)
  preSets : CoreWSPreSets
  deferredId : Nat
deriving DecidableEq

/-- The mutable retry state of CoreWSProvider: the retryCalls queue, the
retryTimeout field (0 when no cooldown is active), and the next fresh deferred
promise identifier. -/
structure WSState where
  retryCalls : List RetryCall
  retryTimeout : Int
  nextDeferredId : Nat
deriving DecidableEq

/-- The initial provider state: empty queue, no cooldown. -/
def initialWSState : WSState := { retryCalls := [], retryTimeout := 0, nextDeferredId := 0 }

/-- Embeds addToRetryQueue: pushes the call onto retryCalls and returns the
deferred promise identifier handed to the caller. -/
def addToRetryQueue (method siteUrl : String) (data : List (String × String))
    (preSets : CoreWSPreSets) (st : WSState) : WSState × Nat :=
  let d := st.nextDeferredId
  ({ st with
      retryCalls := st.retryCalls ++ [⟨method, siteUrl, data, preSets, d⟩],
      nextDeferredId := d + 1 }, d)

/-- How a failed performPost settles: either the caller now waits on a deferred
promise in the retry queue, or the promise rejects with an error. -/
inductive PostFailOutcome where
  | queuedDeferred (id : Nat) : PostFailOutcome
  | rejected (e : WSCallError) : PostFailOutcome
deriving DecidableEq

/-- Embeds the rejection handler of performPost: on HTTP status 429 the call is
added to the retry queue, and when no cooldown is active a single timer of
computeRetryTimeout seconds is scheduled (returned as the third component);
every other failure rejects with the server-connection error and leaves the
queue untouched. -/
def performPostOnError (method siteUrl : String) (data : List (String × String))
    (preSets : CoreWSPreSets) (status : Option Int) (retryAfterHeader : Option String)
    (st : WSState) : WSState × PostFailOutcome × Option Int :=
  if status = some 429 then
    let r := addToRetryQueue method siteUrl data preSets st
    if st.retryTimeout = 0 then
      let t := computeRetryTimeout retryAfterHeader
      ({ r.1 with retryTimeout := t }, .queuedDeferred r.2, some t)
    else (r.1, .queuedDeferred r.2, none)
  else (st, .rejected (.coreError "core.serverconnection"), none)

/-- Embeds the drain recursion of processRetryQueue as the timeline it
produces: starting when the cooldown timer fires at the given time in
milliseconds, each step schedules a 200 ms delay and then re-issues the front
call of the queue, resolving its deferred promise with the replayed result, and
recurses on the rest. This is the drain in the run where no replayed call
receives a new 429, so retryTimeout stays 0 throughout the recursion. -/
def processRetryQueueEvents (now : Nat) : List RetryCall → List (Nat × RetryCall)
  | [] => []
  | c :: rest => (now + 200, c) :: processRetryQueueEvents (now + 200) rest

/-! ## The call entry point

Embeds CoreWSProvider.call: it throws synchronously without preSets or when
offline, normalises the preSets defaults, extends the payload with wsfunction
and wstoken, builds the REST endpoint URL, and then either joins the retry
queue, when retry calls are pending, or performs the post. -/

/-- How a call is routed by CoreWSProvider.call. -/
inductive CallOutcome where
  | threw (e : WSCallError) : CallOutcome
  | queuedDeferred (id : Nat) : CallOutcome
  | posted (siteUrl : String) (data : List (String × String)) (preSets : CoreWSPreSets) : CallOutcome
deriving DecidableEq

/-- Embeds CoreWSProvider.call. -/
def call (method : String) (data : List (String × String)) (preSets : Option CoreWSPreSets)
    (isOnline : Bool) (st : WSState) : WSState × CallOutcome :=
  match preSets with
  | none => (st, .threw (.coreError "core.unexpectederror"))
  | some ps =>
    if !isOnline then (st, .threw (.coreError "core.networkerrormsg"))
    else
      let ps1 : CoreWSPreSets :=
        { ps with
            typeExpected := some (ps.typeExpected.getD "object"),
            responseExpected := some (ps.responseExpected.getD true) }
      let dataToSend := data ++ [("wsfunction", method), ("wstoken", ps.wsToken)]
      let siteUrl := ps.siteUrl ++ "/webservice/rest/server.php?moodlewsrestformat=json"
      if st.retryCalls.length > 0 then
        let r := addToRetryQueue method siteUrl dataToSend ps1 st
        (r.1, .queuedDeferred r.2)
      else (st, .posted siteUrl dataToSend ps1)

/-! ## AddonMessagesProvider: sending messages

sendMessage decides between a live send and the offline store from the
connectivity flag and the pending-message check of the offline store; its
collaborators (appProvider.isOnline, messagesOffline.hasMessages,
messagesOffline.saveMessage and the WS write behind sendMessagesOnline) are
embedded as an environment record carrying the outcome each of them would
produce in the run under consideration, and the classifier
utils.isWebServiceError as a predicate parameter. -/

/-- A message entry stored by messagesOffline.saveMessage. -/
structure OfflineMessage where
  toUserId : Int
  text : String
deriving DecidableEq

/-- One element of the response array of core_message_send_instant_messages. -/
structure SentMessageInfo where
  msgid : Int
  errormessage : String
deriving DecidableEq

/-- Outcome of the WS write performed by sendMessagesOnline: either the site
write rejected with an error, or it resolved with the response array. -/
inductive WriteResult where
  | failure (err : String) : WriteResult
  | success (resp : List SentMessageInfo) : WriteResult
deriving DecidableEq

/-- The rejection payload of sendMessageOnline: the error plus the wserror flag
telling whether the WebService rejected the write. -/
structure SendMsgError where
  error : String
  wserror : Bool
deriving DecidableEq

/-- Embeds AddonMessagesProvider.sendMessageOnline: a rejection of the write is
re-thrown tagged with isWebServiceError, a response whose first element has
msgid -1 is turned into a rejection tagged as a WebService error, and any other
response resolves (after invalidating the discussion cache, whose errors are
ignored). -/
def sendMessageOnline (isWebServiceError : String → Bool) (wr : WriteResult) :
    Except SendMsgError Unit :=
  match wr with
  | .failure err => .error ⟨err, isWebServiceError err⟩
  | .success resp =>
    match resp.head? with
    | some first =>
      if first.msgid = -1 then .error ⟨first.errormessage, true⟩
      else .ok ()
    | none => .ok ()

/-- Environment of one sendMessage run: connectivity, the outcome of the
pending-message check on the offline store (which can itself fail), the outcome
the offline store would give to saveMessage, and the outcome the WS write would
give. -/
structure SendEnv where
  isOnline : Bool
  hasMessagesResult : Except Unit Bool
  saveMessageResult : Except String OfflineMessage
  writeResult : WriteResult

/-- How the promise returned by sendMessage settles. -/
inductive SendMessageResult where
  | resolvedSent : SendMessageResult
  | resolvedStored (entry : OfflineMessage) : SendMessageResult
  | rejected (error : String) : SendMessageResult
deriving DecidableEq

/-- A sendMessage run: how its promise settles, whether sendMessageOnline was
invoked, and whether storeOffline was invoked. -/
structure SendMessageRun where
  result : SendMessageResult
  attemptedLiveSend : Bool
  attemptedStoreOffline : Bool
deriving DecidableEq

/-- Embeds AddonMessagesProvider.sendMessage: offline devices store the message
at once; otherwise the pending-message check runs, a failing check counting as
pending; with pending messages the message is stored to preserve order; only
otherwise is the live send attempted, whose WebService rejections propagate and
whose other failures fall back to the offline store. The storeOffline closure
resolves with sent false and the stored entry, and propagates a failure of the
offline store. -/
def sendMessage (isWebServiceError : String → Bool) (env : SendEnv) : SendMessageRun :=
  let storeResult : SendMessageResult :=
    match env.saveMessageResult with
    | .ok entry => .resolvedStored entry
    | .error e => .rejected e
  if !env.isOnline then
    { result := storeResult, attemptedLiveSend := false, attemptedStoreOffline := true }
  else
    let hasStoredMessages :=
      match env.hasMessagesResult with
      | .ok b => b
      | .error _ => true
    if hasStoredMessages then
      { result := storeResult, attemptedLiveSend := false, attemptedStoreOffline := true }
    else
      match sendMessageOnline isWebServiceError env.writeResult with
      | .ok _ => { result := .resolvedSent, attemptedLiveSend := true, attemptedStoreOffline := false }
      | .error d =>
        if d.wserror then
          { result := .rejected d.error, attemptedLiveSend := true, attemptedStoreOffline := false }
        else
          { result := storeResult, attemptedLiveSend := true, attemptedStoreOffline := true }

/-! ## AddonMessagesProvider.sortMessages

The comparator orders pending messages after synced ones, then compares the
timecreated values, breaking exact ties through the id fields when the id of
the left message is truthy. A message record carries the three fields the
comparator reads; an absent id is none, and JavaScript comparison against an
undefined id is false. Engines sort with a stable comparison sort, embedded
here as insertion sort over the comparator. -/

/-- The fields of a message read by the sortMessages comparator. -/
structure MessageRecord where
  pending : Bool
  timecreated : Int
  id : Option Int
deriving DecidableEq

/-- Truthiness of an id field: undefined and 0 are falsy. -/
def jsIdTruthy : Option Int → Bool
  | none => false
  | some n => decide (n ≠ 0)

/-- The JavaScript comparison a.id >= b.id: false whenever either side is
undefined, numeric comparison otherwise. -/
def jsIdGe : Option Int → Option Int → Bool
  | some a, some b => decide (a ≥ b)
  | _, _ => false

/-- Embeds the comparator passed to messages.sort by sortMessages. -/
def messageComparator (a b : MessageRecord) : Int :=
  if a.pending && !b.pending then 1
  else if !a.pending && b.pending then -1
  else if a.timecreated = b.timecreated ∧ jsIdTruthy a.id then
    if jsIdGe a.id b.id then 1 else -1
  else if a.timecreated ≥ b.timecreated then 1 else -1

/-- Inserts a message into an already sorted list, before the first element
that the comparator places strictly after it. -/
def insertSorted (a : MessageRecord) : List MessageRecord → List MessageRecord
  | [] => [a]
  | b :: l => if messageComparator a b < 0 then a :: b :: l else b :: insertSorted a l

/-- Embeds AddonMessagesProvider.sortMessages: the array sort with the
comparator, realised as a stable comparison sort. -/
def sortMessages : List MessageRecord → List MessageRecord
  | [] => []
  | a :: l => insertSorted a (sortMessages l)

/-! ## AddonMessagesProvider cache invalidation

The cache keys come from messages.ts. The per-site WS cache itself lives in
CoreSite, outside these sources. -/

/-- The root cache key of the messages addon. -/
def ROOT_CACHE_KEY : String := "mmaMessages:"

/-- Embeds getCacheKeyForContacts. -/
def getCacheKeyForContacts : String := ROOT_CACHE_KEY ++ "contacts"

/-- Embeds getCacheKeyForDiscussions. -/
def getCacheKeyForDiscussions : String := ROOT_CACHE_KEY ++ "discussions"

/-- Modelled from the spec: the per-site WS response cache of CoreSite, whose
implementation is not among these sources, is keyed storage of prior responses;
an entry is stored under its cache key and a read is served from the cache only
when an entry for its key is present. -/
def SiteCache : Type := List (String × String)

/-- Modelled from the spec: CoreSite.invalidateWsCacheForKey clears the cache
entry stored under the given key. -/
def invalidateWsCacheForKey (cache : SiteCache) (key : String) : SiteCache :=
  List.filter (fun kv => kv.1 ≠ key) cache

/-- Modelled from the spec: a read consults the cache first and falls back to a
live fetch; the Bool tells whether a live fetch was triggered. -/
def readWithCache (cache : SiteCache) (key : String) (liveValue : String) : String × Bool :=
  match List.lookup key cache with
  | some v => (v, false)
  | none => (liveValue, true)

/-- Embeds AddonMessagesProvider.invalidateContactsCache: clears the contacts
cache key. -/
def invalidateContactsCache (cache : SiteCache) : SiteCache :=
  invalidateWsCacheForKey cache getCacheKeyForContacts

/-- Embeds AddonMessagesProvider.invalidateDiscussionsCache: clears the
discussions cache key and then the contacts cache key. -/
def invalidateDiscussionsCache (cache : SiteCache) : SiteCache :=
  invalidateContactsCache (invalidateWsCacheForKey cache getCacheKeyForDiscussions)

/-! ## Call deduplication of CoreWSProvider.callAjax

callAjax keys in-flight promises by getQueueItemId, the method name plus the
MD5 hash of the URL and the serialized parameter record, and consults the
ongoingCalls map before issuing a network request. The hash and the
serialization of the cacheParams record (methodname plus args, the args being
the opaque ajax payload) are kept as function parameters; the claims hold for
every choice of them. Promises are identified by allocation order, and the
state counts the network requests issued by performAjax. -/

/-- The deduplication state of CoreWSProvider: the ongoingCalls map from queue
item id to the stored in-flight promise, the next fresh promise identifier, and
a count of network requests issued. -/
structure DedupState where
  ongoingCalls : List (String × Nat)
  nextPromiseId : Nat
  networkRequests : Nat
deriving DecidableEq

/-- Embeds getQueueItemId: when params are given, their serialization is joined
to the URL with the three-hash separator; the id is the method plus the hash of
the result. -/
def getQueueItemId (md5 : String → String) (method url : String)
    (serializedParams : Option String) : String :=
  match serializedParams with
  | some s => method ++ "#" ++ md5 (url ++ "###" ++ s)
  | none => method ++ "#" ++ md5 url

/-- Embeds getPromiseHttp: the ongoing promise stored under the queue item id,
if any. -/
def getPromiseHttp (st : DedupState) (queueItemId : String) : Option Nat :=
  List.lookup queueItemId st.ongoingCalls

/-- Embeds callAjax for a payload already in serialized form: the cacheParams
record of methodname and args is serialized by the given function; a stored
in-flight promise for the queue item id is returned as is, otherwise
performAjax issues one network request and the fresh promise is stored under
the id, as setPromiseHttp does. Returns the promise handed to the caller. -/
def callAjax (md5 : String → String) (serializeCacheParams : String → String → String)
    (method : String) (data : String) (siteUrl : String) (st : DedupState) :
    DedupState × Nat :=
  let qid := getQueueItemId md5 "ajax" siteUrl (some (serializeCacheParams method data))
  match getPromiseHttp st qid with
  | some p => (st, p)
  | none =>
    let p := st.nextPromiseId
    ({ ongoingCalls := st.ongoingCalls ++ [(qid, p)],
       nextPromiseId := p + 1,
       networkRequests := st.networkRequests + 1 }, p)

/-- The events that touch the ongoingCalls map: another ajax call, the finally
handler of a stored promise removing its entry on settlement, and the cleanup
timer of setPromiseHttp removing the entry when the request timeout elapses. -/
inductive DedupEvent where
  | ajaxCall (method : String) (data : String) (siteUrl : String) : DedupEvent
  | settle (queueItemId : String) : DedupEvent
  | cleanupTimeout (queueItemId : String) : DedupEvent
deriving DecidableEq

/-- One step of the deduplication state under an event. -/
def dedupStep (md5 : String → String) (ser : String → String → String)
    (e : DedupEvent) (st : DedupState) : DedupState :=
  match e with
  | .ajaxCall m d u => (callAjax md5 ser m d u st).1
  | .settle q => { st with ongoingCalls := st.ongoingCalls.filter (fun kv => kv.1 ≠ q) }
  | .cleanupTimeout q => { st with ongoingCalls := st.ongoingCalls.filter (fun kv => kv.1 ≠ q) }

/-- Runs a list of events over the deduplication state. -/
def dedupRun (md5 : String → String) (ser : String → String → String)
    (evs : List DedupEvent) (st : DedupState) : DedupState :=
  evs.foldl (fun s e => dedupStep md5 ser e s) st

/-- Embeds the transport step of performPost on the deduplication state: the
REST path issues its post request unconditionally and hands the caller a fresh
promise; performPost neither consults nor updates the ongoingCalls map, which
only callAjax and performHead go through. -/
def performPostIssue (st : DedupState) : DedupState × Nat :=
  ({ st with
      networkRequests := st.networkRequests + 1,
      nextPromiseId := st.nextPromiseId + 1 }, st.nextPromiseId)

/-! ## Association list helpers -/

/-- A lookup that succeeds still succeeds, with the same value, after appending
entries on the right. -/
theorem lookup_append_of_some {β : Type} {l l2 : List (String × β)} {k : String} {v : β}
    (h : List.lookup k l = some v) : List.lookup k (l ++ l2) = some v := by
  induction l with
  | nil => simp [List.lookup] at h
  | cons a t ih =>
    rcases a with ⟨ka, va⟩
    by_cases hk : k = ka
    · simp [List.lookup, hk] at h ⊢
      exact h
    · simp only [List.lookup, List.cons_append] at h ⊢
      rw [show (k == ka) = false from beq_eq_false_iff_ne.mpr hk] at h ⊢
      exact ih h

/-- Appending a binding for a key that is absent makes lookup find it. -/
theorem lookup_append_fresh {β : Type} {l : List (String × β)} {k : String} {v : β}
    (h : List.lookup k l = none) : List.lookup k (l ++ [(k, v)]) = some v := by
  induction l with
  | nil => simp [List.lookup]
  | cons a t ih =>
    rcases a with ⟨ka, va⟩
    by_cases hk : k = ka
    · simp [List.lookup, hk] at h
    · simp only [List.lookup, List.cons_append] at h ⊢
      rw [show (k == ka) = false from beq_eq_false_iff_ne.mpr hk] at h ⊢
      exact ih h

/-- Filtering out the bindings of a different key leaves a lookup unchanged. -/
theorem lookup_filter_ne {β : Type} (l : List (String × β)) {q k : String} (h : k ≠ q) :
    List.lookup k (l.filter (fun kv => kv.1 ≠ q)) = List.lookup k l := by
  induction l with
  | nil => simp
  | cons a t ih =>
    rcases a with ⟨ka, va⟩
    by_cases hq : ka = q
    · subst hq
      have : k ≠ ka := h
      simp only [List.filter, List.lookup]
      rw [show (decide (ka ≠ ka)) = false by simp]
      rw [show (k == ka) = false from beq_eq_false_iff_ne.mpr h]
      exact ih
    · simp only [List.filter, List.lookup]
      rw [show (decide (ka ≠ q)) = true from decide_eq_true hq]
      by_cases hk : k = ka
      · simp [List.lookup, hk]
      · simp only [List.lookup]
        rw [show (k == ka) = false from beq_eq_false_iff_ne.mpr hk]
        exact ih

/-- Filtering out the bindings of a key makes its lookup fail. -/
theorem lookup_filter_self {β : Type} (l : List (String × β)) (k : String) :
    List.lookup k (l.filter (fun kv => kv.1 ≠ k)) = none := by
  induction l with
  | nil => simp
  | cons a t ih =>
    rcases a with ⟨ka, va⟩
    by_cases hq : ka = k
    · subst hq
      simp only [List.filter]
      rw [show (decide (ka ≠ ka)) = false by simp]
      exact ih
    · simp only [List.filter]
      rw [show (decide (ka ≠ k)) = true from decide_eq_true hq]
      simp only [List.lookup]
      rw [show (k == ka) = false from beq_eq_false_iff_ne.mpr (Ne.symm hq)]
      exact ih

/-! ## Claims about cache invalidation -/

/-- C7: invalidating the discussions list cache also invalidates the contacts
cache: after every successful invalidateDiscussionsCache run both the
discussions key and the contacts key hold no entry, so a subsequent read of
contacts is a live fetch and cannot be served from data cached before the
invalidation. -/
theorem claim_C7_invalidate_discussions_clears_contacts (cache : SiteCache) (liveValue : String) :
    List.lookup getCacheKeyForContacts (invalidateDiscussionsCache cache) = none
    ∧ List.lookup getCacheKeyForDiscussions (invalidateDiscussionsCache cache) = none
    ∧ readWithCache (invalidateDiscussionsCache cache) getCacheKeyForContacts liveValue
        = (liveValue, true) := by
  have hcontacts :
      List.lookup getCacheKeyForContacts (invalidateDiscussionsCache cache) = none := by
    unfold invalidateDiscussionsCache invalidateContactsCache invalidateWsCacheForKey
    exact lookup_filter_self _ _
  have hkeys : getCacheKeyForDiscussions ≠ getCacheKeyForContacts := by decide
  refine ⟨hcontacts, ?_, ?_⟩
  · unfold invalidateDiscussionsCache invalidateContactsCache invalidateWsCacheForKey
    rw [lookup_filter_ne _ hkeys]
    exact lookup_filter_self _ _
  · unfold readWithCache
    rw [hcontacts]

/-! ## Claims about the overload retry path -/

/-- C9: a failed WS call enters the overload retry queue exactly when the HTTP
status is 429; every other failure, a timeout having no status among them,
rejects at once with the server-connection error and leaves the retry queue
untouched. -/
theorem claim_C9_only_429_enters_retry_queue (method siteUrl : String)
    (data : List (String × String)) (preSets : CoreWSPreSets)
    (status : Option Int) (header : Option String) (st : WSState) :
    (status ≠ some 429 →
      performPostOnError method siteUrl data preSets status header st
        = (st, .rejected (.coreError "core.serverconnection"), none))
    ∧ (status = some 429 →
      (performPostOnError method siteUrl data preSets status header st).1.retryCalls
        = st.retryCalls ++ [⟨method, siteUrl, data, preSets, st.nextDeferredId⟩]) := by
  constructor
  · intro h
    simp [performPostOnError, h]
  · intro h
    simp only [performPostOnError, if_pos h, addToRetryQueue]
    split <;> rfl

/-- A fixed preSets value used by concrete instantiations. -/
def wsPreSets0 : CoreWSPreSets :=
  { siteUrl := "https://school.example", wsToken := "token0",
    responseExpected := none, typeExpected := none }

/-- Witness for C9: a concrete rejection with status 500 is refused the retry
queue and rejects with the server-connection error, and a concrete 429 is
appended to the queue. -/
theorem claim_C9_only_429_enters_retry_queue_witness :
    performPostOnError "core_enrol_get_users_courses" "https://school.example/ws" []
        wsPreSets0 (some 500) none initialWSState
      = (initialWSState, .rejected (.coreError "core.serverconnection"), none)
    ∧ (performPostOnError "core_enrol_get_users_courses" "https://school.example/ws" []
        wsPreSets0 (some 429) none initialWSState).1.retryCalls
      = [⟨"core_enrol_get_users_courses", "https://school.example/ws", [], wsPreSets0, 0⟩] := by
  constructor
  · exact (claim_C9_only_429_enters_retry_queue _ _ _ _ _ _ _).1 (by decide)
  · exact (claim_C9_only_429_enters_retry_queue _ _ _ _ _ _ _).2 rfl

/-! ## Claims about sendMessage -/

/-- C2: when pending offline messages exist for the recipient, a new
sendMessage write is stored offline and the live send is never attempted, even
online; and a live send is attempted only when the device is online and the
pending-message check answered that none exist. -/
theorem claim_C2_pending_forces_queueing (isWSErr : String → Bool) (env : SendEnv) :
    (env.hasMessagesResult = Except.ok true →
      (sendMessage isWSErr env).attemptedLiveSend = false
      ∧ (sendMessage isWSErr env).attemptedStoreOffline = true)
    ∧ ((sendMessage isWSErr env).attemptedLiveSend = true →
      env.isOnline = true ∧ env.hasMessagesResult = Except.ok false) := by
  rcases env with ⟨online, hmr, smr, wr⟩
  rcases online
  · constructor
    · intro h
      simp [sendMessage]
    · intro h
      simp [sendMessage] at h
  · rcases hmr with u | b
    · constructor
      · intro h
        simp at h
      · intro h
        simp [sendMessage] at h
    · rcases b
      · constructor
        · intro h
          simp at h
        · intro h
          refine ⟨rfl, rfl⟩
      · constructor
        · intro h
          simp [sendMessage]
        · intro h
          simp [sendMessage] at h

/-- Witness for C2: with pending offline messages on an online device, the
concrete run stores the message and does not send live. -/
theorem claim_C2_pending_forces_queueing_witness :
    (sendMessage (fun _ => false)
        { isOnline := true, hasMessagesResult := Except.ok true,
          saveMessageResult := Except.ok ⟨7, "hi"⟩,
          writeResult := .success [] }).attemptedLiveSend = false
    ∧ (sendMessage (fun _ => false)
        { isOnline := true, hasMessagesResult := Except.ok true,
          saveMessageResult := Except.ok ⟨7, "hi"⟩,
          writeResult := .success [] }).attemptedStoreOffline = true :=
  (claim_C2_pending_forces_queueing (fun _ => false) _).1 rfl

/-- C3: when the online send fails with a WebService error, sendMessage rejects
with that error and the offline store is never written; within a failing online
send, offline storage happens only for non-WebService failures. -/
theorem claim_C3_wserror_not_queued (isWSErr : String → Bool) (env : SendEnv)
    (d : SendMsgError)
    (hon : env.isOnline = true)
    (hpend : env.hasMessagesResult = Except.ok false)
    (herr : sendMessageOnline isWSErr env.writeResult = Except.error d) :
    (d.wserror = true →
      (sendMessage isWSErr env).result = .rejected d.error
      ∧ (sendMessage isWSErr env).attemptedStoreOffline = false)
    ∧ ((sendMessage isWSErr env).attemptedStoreOffline = true → d.wserror = false) := by
  rcases env with ⟨online, hmr, smr, wr⟩
  simp only at hon hpend herr
  subst hon hpend
  constructor
  · intro hws
    simp [sendMessage, herr, hws]
  · intro hstore
    rcases hws : d.wserror
    · rfl
    · simp [sendMessage, herr, hws] at hstore

/-- Witness for C3: a concrete response whose first element has msgid -1 is a
WebService rejection; the run rejects with its error message and stores
nothing. -/
theorem claim_C3_wserror_not_queued_witness :
    sendMessageOnline (fun _ => false)
        (.success [⟨-1, "policy refused"⟩]) = Except.error ⟨"policy refused", true⟩
    ∧ (sendMessage (fun _ => false)
        { isOnline := true, hasMessagesResult := Except.ok false,
          saveMessageResult := Except.ok ⟨7, "hi"⟩,
          writeResult := .success [⟨-1, "policy refused"⟩] }).result
        = .rejected "policy refused"
    ∧ (sendMessage (fun _ => false)
        { isOnline := true, hasMessagesResult := Except.ok false,
          saveMessageResult := Except.ok ⟨7, "hi"⟩,
          writeResult := .success [⟨-1, "policy refused"⟩] }).attemptedStoreOffline = false := by
  have h := (claim_C3_wserror_not_queued (fun _ => false)
      { isOnline := true, hasMessagesResult := Except.ok false,
        saveMessageResult := Except.ok ⟨7, "hi"⟩,
        writeResult := .success [⟨-1, "policy refused"⟩] }
      ⟨"policy refused", true⟩ rfl rfl (by rfl)).1 rfl
  exact ⟨by rfl, h.1, h.2⟩

/-- C5: a transient failure of a write is recovered locally: if the device is
offline at sendMessage time, or the online send fails with a non-WebService
error, the message is stored offline and the call resolves with the stored
entry rather than rejecting. -/
theorem claim_C5_transient_failure_stores_offline (isWSErr : String → Bool) (env : SendEnv)
    (entry : OfflineMessage)
    (hsave : env.saveMessageResult = Except.ok entry) :
    (env.isOnline = false → (sendMessage isWSErr env).result = .resolvedStored entry)
    ∧ (∀ d : SendMsgError, env.isOnline = true → env.hasMessagesResult = Except.ok false →
        sendMessageOnline isWSErr env.writeResult = Except.error d → d.wserror = false →
        (sendMessage isWSErr env).result = .resolvedStored entry) := by
  rcases env with ⟨online, hmr, smr, wr⟩
  simp only at hsave
  subst hsave
  constructor
  · intro hoff
    simp only at hoff
    subst hoff
    simp [sendMessage]
  · intro d hon hpend herr hws
    simp only at hon hpend herr
    subst hon hpend
    simp [sendMessage, herr, hws]

/-- Witness for C5: offline, the concrete message is stored and the promise
resolves with the stored entry; online with a connectivity failure of the
write, it is likewise stored. -/
theorem claim_C5_transient_failure_stores_offline_witness :
    (sendMessage (fun _ => false)
        { isOnline := false, hasMessagesResult := Except.ok false,
          saveMessageResult := Except.ok ⟨7, "hi"⟩,
          writeResult := .failure "net down" }).result = .resolvedStored ⟨7, "hi"⟩
    ∧ (sendMessage (fun _ => false)
        { isOnline := true, hasMessagesResult := Except.ok false,
          saveMessageResult := Except.ok ⟨7, "hi"⟩,
          writeResult := .failure "net down" }).result = .resolvedStored ⟨7, "hi"⟩ := by
  constructor
  · exact (claim_C5_transient_failure_stores_offline (fun _ => false)
      { isOnline := false, hasMessagesResult := Except.ok false,
        saveMessageResult := Except.ok ⟨7, "hi"⟩,
        writeResult := .failure "net down" } ⟨7, "hi"⟩ rfl).1 rfl
  · exact (claim_C5_transient_failure_stores_offline (fun _ => false)
      { isOnline := true, hasMessagesResult := Except.ok false,
        saveMessageResult := Except.ok ⟨7, "hi"⟩,
        writeResult := .failure "net down" } ⟨7, "hi"⟩ rfl).2
      ⟨"net down", false⟩ rfl rfl (by rfl) rfl

/-- C10: when the pending-message check itself fails, sendMessage behaves as
though pending messages exist: the message is stored offline, the promise
resolves with the stored entry, and no live send happens. -/
theorem claim_C10_check_failure_assumes_pending (isWSErr : String → Bool) (env : SendEnv)
    (entry : OfflineMessage)
    (hfail : env.hasMessagesResult = Except.error ())
    (hsave : env.saveMessageResult = Except.ok entry) :
    (sendMessage isWSErr env).result = .resolvedStored entry
    ∧ (sendMessage isWSErr env).attemptedLiveSend = false := by
  rcases env with ⟨online, hmr, smr, wr⟩
  simp only at hfail hsave
  subst hfail hsave
  rcases online <;> simp [sendMessage]

/-- Witness for C10: an online device whose offline store cannot be read stores
the concrete message and sends nothing live. -/
theorem claim_C10_check_failure_assumes_pending_witness :
    (sendMessage (fun _ => false)
        { isOnline := true, hasMessagesResult := Except.error (),
          saveMessageResult := Except.ok ⟨7, "hi"⟩,
          writeResult := .success [] }).result = .resolvedStored ⟨7, "hi"⟩
    ∧ (sendMessage (fun _ => false)
        { isOnline := true, hasMessagesResult := Except.error (),
          saveMessageResult := Except.ok ⟨7, "hi"⟩,
          writeResult := .success [] }).attemptedLiveSend = false :=
  claim_C10_check_failure_assumes_pending (fun _ => false) _ ⟨7, "hi"⟩ rfl rfl

/-! ## Claim about response type coercion -/

/-- C8: when a truthy response reaches the type check and its dynamic type does
not match typeExpected, then: a string with an expected number is converted
with numeric parsing and fails with the invalid-response error exactly when the
parse is NaN; a string with an expected boolean is coerced only from the exact
strings true and false, anything else failing with the invalid-response error;
every other mismatch fails with the invalid-response error. -/
theorem claim_C8_type_mismatch_coercion (numParse : String → Option Int)
    (typeExpected : String) (responseExpected : Bool) (data : JSValue)
    (htruthy : jsTruthy data = true) (hmismatch : jsTypeof data ≠ typeExpected) :
    (∀ s, data = .str s → typeExpected = "number" →
      performPostTreat numParse typeExpected responseExpected data
        = match numParse s with
          | some n => .ok (.num n)
          | none => .error (.coreError "core.errorinvalidresponse"))
    ∧ (∀ s, data = .str s → typeExpected = "boolean" →
      performPostTreat numParse typeExpected responseExpected data
        = if s = "true" then .ok (.bool true)
          else if s = "false" then .ok (.bool false)
          else .error (.coreError "core.errorinvalidresponse"))
    ∧ (((∀ s, data ≠ .str s) ∨ (typeExpected ≠ "number" ∧ typeExpected ≠ "boolean")) →
      performPostTreat numParse typeExpected responseExpected data
        = .error (.coreError "core.errorinvalidresponse")) := by
  have hbase : performPostTreat numParse typeExpected responseExpected data
      = match coerceType numParse typeExpected data with
        | .error e => .error e
        | .ok d =>
          if hasExceptionField d then .error (.wsError d)
          else if hasDebuginfoField d then .error (.coreError ("Error. " ++ jsMessage d))
          else .ok d := by
    unfold performPostTreat
    simp [htruthy]
  refine ⟨?_, ?_, ?_⟩
  · intro s hs hnum
    subst hs hnum
    rw [hbase]
    unfold coerceType
    rw [if_pos hmismatch]
    rcases hp : numParse s with _ | n
    · simp [hp]
    · simp [hp, hasExceptionField, hasDebuginfoField]
  · intro s hs hbool
    subst hs hbool
    rw [hbase]
    unfold coerceType
    rw [if_pos hmismatch]
    by_cases h1 : s = "true"
    · simp [h1, hasExceptionField, hasDebuginfoField]
    · by_cases h2 : s = "false"
      · simp [h1, h2, hasExceptionField, hasDebuginfoField]
      · simp [h1, h2]
  · intro hother
    rw [hbase]
    unfold coerceType
    rw [if_pos hmismatch]
    rcases data with _ | s | n | b | ⟨e1, dbg, m⟩
    · rfl
    · rcases hother with hnostr | ⟨hnum, hbool⟩
      · exact absurd rfl (hnostr s)
      · simp [hnum, hbool]
    · rfl
    · rfl
    · rfl

/-- Witness for C8: with the embedded parseInt-style conversion, the concrete
string 7 with an expected number parses and resolves with the number 7, while
the concrete string x fails with the invalid-response error. -/
theorem claim_C8_type_mismatch_coercion_witness :
    jsTruthy (JSValue.str "7") = true
    ∧ jsTypeof (JSValue.str "7") ≠ "number"
    ∧ performPostTreat (fun s => parseIntChars s.data) "number" true (JSValue.str "7")
        = .ok (.num 7)
    ∧ performPostTreat (fun s => parseIntChars s.data) "number" true (JSValue.str "x")
        = .error (.coreError "core.errorinvalidresponse") := by
  refine ⟨by decide, by decide, ?_, ?_⟩
  · have h := (claim_C8_type_mismatch_coercion (fun s => parseIntChars s.data) "number" true
      (JSValue.str "7") (by decide) (by decide)).1 "7" rfl rfl
    rw [h]
    rfl
  · have h := (claim_C8_type_mismatch_coercion (fun s => parseIntChars s.data) "number" true
      (JSValue.str "x") (by decide) (by decide)).1 "x" rfl rfl
    rw [h]
    rfl

/-! ## Claim about sortMessages

The ordering the claim asserts of the output is expressed pairwise: a pending
message never precedes a synced one, messages of equal pending status are in
timecreated order, and equal-time messages of equal pending status with truthy
ids are in id order. Ids in the data model are server-assigned positive
integers or absent on unsynced entries; the validId predicate captures that
domain. -/

/-- A message id as stored: absent, or a positive server-assigned integer. -/
def validId : Option Int → Bool
  | none => true
  | some n => decide (0 < n)

/-- Order on id fields used in the pairwise ordering statement: present ids
ascending, and absent ids after every present id. -/
def msgIdLe (x y : Option Int) : Bool :=
  match x, y with
  | some a, some b => decide (a ≤ b)
  | none, some _ => false
  | _, none => true

/-- The pairwise order the sorted output satisfies: synced before pending,
timecreated ascending within equal pending status, and ids ascending (absent
ids last) among equal-time messages of equal pending status. -/
def msgOrdered (a b : MessageRecord) : Prop :=
  (a.pending = true → b.pending = true)
  ∧ (a.pending = b.pending → a.timecreated ≤ b.timecreated)
  ∧ (a.pending = b.pending → a.timecreated = b.timecreated → msgIdLe a.id b.id = true)

instance (a b : MessageRecord) : Decidable (msgOrdered a b) := by
  unfold msgOrdered
  infer_instance

theorem msgIdLe_trans {x y z : Option Int} (hxy : msgIdLe x y = true)
    (hyz : msgIdLe y z = true) : msgIdLe x z = true := by
  rcases x with _ | a <;> rcases y with _ | b <;> rcases z with _ | c
  · rfl
  · exact hyz
  · rfl
  · exact absurd hxy (by simp [msgIdLe])
  · rfl
  · exact absurd hyz (by simp [msgIdLe])
  · rfl
  · simp only [msgIdLe, decide_eq_true_eq] at hxy hyz ⊢
    omega

theorem msgOrdered_trans {a b c : MessageRecord} (hab : msgOrdered a b)
    (hbc : msgOrdered b c) : msgOrdered a c := by
  obtain ⟨p1, t1, i1⟩ := hab
  obtain ⟨p2, t2, i2⟩ := hbc
  have hmid : a.pending = c.pending → a.pending = b.pending ∧ b.pending = c.pending := by
    intro hac
    rcases hpa : a.pending <;> rcases hpb : b.pending <;> rcases hpc : c.pending <;>
      simp_all
  refine ⟨fun h => p2 (p1 h), ?_, ?_⟩
  · intro hac
    obtain ⟨h1, h2⟩ := hmid hac
    exact le_trans (t1 h1) (t2 h2)
  · intro hac ht
    obtain ⟨h1, h2⟩ := hmid hac
    have hta := t1 h1
    have htb := t2 h2
    have htab : a.timecreated = b.timecreated := le_antisymm hta (ht ▸ htb)
    exact msgIdLe_trans (i1 h1 htab) (i2 h2 (htab ▸ ht))

/-- The value of the comparator on two messages of equal pending status. -/
theorem comparator_same_status {a b : MessageRecord} (hp : a.pending = b.pending) :
    messageComparator a b
      = if a.timecreated = b.timecreated ∧ jsIdTruthy a.id = true then
          (if jsIdGe a.id b.id then (1 : Int) else -1)
        else if a.timecreated ≥ b.timecreated then 1 else -1 := by
  unfold messageComparator
  rcases hpa : a.pending <;> rcases hpb : b.pending <;> simp_all

/-- A comparator result below zero implies the pairwise order left to right,
for messages with ids from the data model. -/
theorem comparator_lt_ordered {a b : MessageRecord} (ha : validId a.id = true)
    (hb : validId b.id = true) (h : messageComparator a b < 0) : msgOrdered a b := by
  by_cases hp : a.pending = b.pending
  · rw [comparator_same_status hp] at h
    obtain ⟨pa, ta, ia⟩ := a
    obtain ⟨pb, tb, ib⟩ := b
    unfold msgOrdered
    dsimp only at h ha hb hp ⊢
    refine ⟨fun hpa => hp ▸ hpa, fun _ => ?_, fun _ ht => ?_⟩
    · by_cases hc : ta = tb ∧ jsIdTruthy ia = true
      · exact le_of_eq hc.1
      · rw [if_neg hc] at h
        by_cases hge : ta ≥ tb
        · rw [if_pos hge] at h
          exact absurd h (by norm_num)
        · exact le_of_not_le hge
    · by_cases hid : jsIdTruthy ia = true
      · rw [if_pos ⟨ht, hid⟩] at h
        rcases ia with _ | x
        · exact absurd hid (by simp [jsIdTruthy])
        · rcases ib with _ | y
          · rfl
          · rcases hge : jsIdGe (some x) (some y) <;> rw [hge] at h
            · simp only [jsIdGe, decide_eq_false_iff_not] at hge
              simp only [msgIdLe, decide_eq_true_eq]
              omega
            · exact absurd h (by norm_num)
      · rw [if_neg (fun hc => hid hc.2), if_pos (ge_of_eq ht)] at h
        exact absurd h (by norm_num)
  · have hcases : (a.pending = false ∧ b.pending = true) ∨ (a.pending = true ∧ b.pending = false) := by
      rcases hpa : a.pending <;> rcases hpb : b.pending <;> simp_all
    rcases hcases with ⟨hpa, hpb⟩ | ⟨hpa, hpb⟩
    · exact ⟨fun hh => absurd hh (by rw [hpa]; simp), fun hh => absurd hh hp,
        fun hh => absurd hh hp⟩
    · unfold messageComparator at h
      rw [hpa, hpb] at h
      exact absurd h (by norm_num)

/-- A comparator result not below zero implies the pairwise order right to
left, for messages with ids from the data model. -/
theorem comparator_ge_ordered {a b : MessageRecord} (ha : validId a.id = true)
    (hb : validId b.id = true) (h : ¬ messageComparator a b < 0) : msgOrdered b a := by
  by_cases hp : a.pending = b.pending
  · rw [comparator_same_status hp] at h
    obtain ⟨pa, ta, ia⟩ := a
    obtain ⟨pb, tb, ib⟩ := b
    unfold msgOrdered
    dsimp only at h ha hb hp ⊢
    refine ⟨fun hpb => hp.symm ▸ hpb, fun _ => ?_, fun _ ht => ?_⟩
    · by_cases hc : ta = tb ∧ jsIdTruthy ia = true
      · exact le_of_eq hc.1.symm
      · rw [if_neg hc] at h
        by_cases hge : ta ≥ tb
        · exact hge
        · rw [if_neg hge] at h
          exact absurd (by norm_num) h
    · by_cases hid : jsIdTruthy ia = true
      · rw [if_pos ⟨ht.symm, hid⟩] at h
        rcases ia with _ | x
        · exact absurd hid (by simp [jsIdTruthy])
        · rcases ib with _ | y
          · rw [show jsIdGe (some x) none = false from rfl] at h
            exact absurd (by norm_num) h
          · rcases hge : jsIdGe (some x) (some y) <;> rw [hge] at h
            · exact absurd (by norm_num) h
            · simp only [jsIdGe, decide_eq_true_eq] at hge
              simp only [msgIdLe, decide_eq_true_eq]
              omega
      · rcases ia with _ | x
        · rcases ib with _ | y <;> rfl
        · simp only [jsIdTruthy, decide_eq_true_eq] at hid
          simp only [validId, decide_eq_true_eq] at ha
          omega
  · have hcases : (a.pending = false ∧ b.pending = true) ∨ (a.pending = true ∧ b.pending = false) := by
      rcases hpa : a.pending <;> rcases hpb : b.pending <;> simp_all
    rcases hcases with ⟨hpa, hpb⟩ | ⟨hpa, hpb⟩
    · unfold messageComparator at h
      rw [hpa, hpb] at h
      exact absurd (by norm_num) h
    · exact ⟨fun hh => absurd hh (by rw [hpb]; simp), fun hh => absurd hh.symm hp,
        fun hh => absurd hh.symm hp⟩

theorem mem_insertSorted {x a : MessageRecord} : ∀ {l : List MessageRecord},
    x ∈ insertSorted a l → x = a ∨ x ∈ l
  | [], h => by
    simp [insertSorted] at h
    exact Or.inl h
  | b :: t, h => by
    unfold insertSorted at h
    by_cases hc : messageComparator a b < 0
    · rw [if_pos hc] at h
      exact List.mem_cons.mp h
    · rw [if_neg hc] at h
      rw [List.mem_cons] at h
      rcases h with h | h
      · exact Or.inr (by simp [h])
      · rcases mem_insertSorted h with h2 | h2
        · exact Or.inl h2
        · exact Or.inr (List.mem_cons_of_mem _ h2)

theorem pairwise_insertSorted {a : MessageRecord} (ha : validId a.id = true) :
    ∀ {l : List MessageRecord}, (∀ m ∈ l, validId m.id = true) →
      l.Pairwise msgOrdered → (insertSorted a l).Pairwise msgOrdered
  | [], _, _ => by simp [insertSorted]
  | b :: t, hl, h => by
    rw [List.pairwise_cons] at h
    obtain ⟨hb, ht⟩ := h
    unfold insertSorted
    by_cases hc : messageComparator a b < 0
    · rw [if_pos hc]
      have hab : msgOrdered a b := comparator_lt_ordered ha (hl b (by simp)) hc
      rw [List.pairwise_cons]
      refine ⟨?_, List.pairwise_cons.mpr ⟨hb, ht⟩⟩
      intro x hx
      rw [List.mem_cons] at hx
      rcases hx with hx | hx
      · rw [hx]
        exact hab
      · exact msgOrdered_trans hab (hb x hx)
    · rw [if_neg hc]
      have hba : msgOrdered b a := comparator_ge_ordered ha (hl b (by simp)) hc
      rw [List.pairwise_cons]
      refine ⟨?_, pairwise_insertSorted ha (fun m hm => hl m (List.mem_cons_of_mem _ hm)) ht⟩
      intro x hx
      rcases mem_insertSorted hx with hx2 | hx2
      · rw [hx2]
        exact hba
      · exact hb x hx2

theorem perm_insertSorted (a : MessageRecord) : ∀ (l : List MessageRecord),
    List.Perm (insertSorted a l) (a :: l)
  | [] => List.Perm.refl _
  | b :: t => by
    unfold insertSorted
    by_cases hc : messageComparator a b < 0
    · rw [if_pos hc]
    · rw [if_neg hc]
      exact (((perm_insertSorted a t).cons b).trans (List.Perm.swap a b t))

theorem perm_sortMessages : ∀ (l : List MessageRecord), List.Perm (sortMessages l) l
  | [] => List.Perm.refl _
  | a :: t => by
    unfold sortMessages
    exact (perm_insertSorted a (sortMessages t)).trans ((perm_sortMessages t).cons a)

theorem pairwise_sortMessages : ∀ (l : List MessageRecord),
    (∀ m ∈ l, validId m.id = true) → (sortMessages l).Pairwise msgOrdered
  | [], _ => by simp [sortMessages]
  | a :: t, hv => by
    unfold sortMessages
    refine pairwise_insertSorted (hv a (by simp)) ?_
      (pairwise_sortMessages t (fun m hm => hv m (List.mem_cons_of_mem _ hm)))
    intro m hm
    exact hv m (List.mem_cons_of_mem _ ((perm_sortMessages t).mem_iff.mp hm))

/-- C6: for every list of messages whose ids are from the data model
(server-assigned positive integers, or absent on unsynced entries), the output
of sortMessages is a permutation of the input in which a pending message never
precedes a synced one regardless of the timecreated values, messages of equal
pending status are in timecreated order, and exact timecreated ties within a
pending status are in id order. -/
theorem claim_C6_sort_pending_last (l : List MessageRecord)
    (hv : ∀ m ∈ l, validId m.id = true) :
    (sortMessages l).Pairwise msgOrdered ∧ List.Perm (sortMessages l) l :=
  ⟨pairwise_sortMessages l hv, perm_sortMessages l⟩

/-- Witness for C6: a concrete list with a pending message timestamped far in
the future still sorts it after the synced ones, whose equal timestamps are
broken by id. -/
theorem claim_C6_sort_pending_last_witness :
    (∀ m ∈ [MessageRecord.mk false 50 (some 9), MessageRecord.mk true 99 none,
        MessageRecord.mk false 50 (some 3)], validId m.id = true)
    ∧ ((sortMessages [MessageRecord.mk false 50 (some 9), MessageRecord.mk true 99 none,
        MessageRecord.mk false 50 (some 3)]).Pairwise msgOrdered
      ∧ List.Perm (sortMessages [MessageRecord.mk false 50 (some 9),
        MessageRecord.mk true 99 none, MessageRecord.mk false 50 (some 3)])
        [MessageRecord.mk false 50 (some 9), MessageRecord.mk true 99 none,
        MessageRecord.mk false 50 (some 3)]) :=
  ⟨by decide, claim_C6_sort_pending_last _ (by decide)⟩

/-! ## Claim about call deduplication -/

/-- The value of callAjax when the queue item id has a stored promise. -/
theorem callAjax_lookup_hit (md5 : String → String) (ser : String → String → String)
    (method data siteUrl : String) (st : DedupState) (p : Nat)
    (h : List.lookup (getQueueItemId md5 "ajax" siteUrl (some (ser method data)))
        st.ongoingCalls = some p) :
    callAjax md5 ser method data siteUrl st = (st, p) := by
  unfold callAjax getPromiseHttp
  simp only [h]

/-- The value of callAjax when the queue item id has no stored promise. -/
theorem callAjax_lookup_miss (md5 : String → String) (ser : String → String → String)
    (method data siteUrl : String) (st : DedupState)
    (h : List.lookup (getQueueItemId md5 "ajax" siteUrl (some (ser method data)))
        st.ongoingCalls = none) :
    callAjax md5 ser method data siteUrl st
      = ({ ongoingCalls := st.ongoingCalls
              ++ [(getQueueItemId md5 "ajax" siteUrl (some (ser method data)), st.nextPromiseId)],
           nextPromiseId := st.nextPromiseId + 1,
           networkRequests := st.networkRequests + 1 }, st.nextPromiseId) := by
  unfold callAjax getPromiseHttp
  simp only [h]

theorem dedupStep_preserves (md5 : String → String) (ser : String → String → String)
    (e : DedupEvent) (st : DedupState) (qid : String) (p : Nat)
    (h : List.lookup qid st.ongoingCalls = some p)
    (hs : e ≠ .settle qid) (hc : e ≠ .cleanupTimeout qid) :
    List.lookup qid (dedupStep md5 ser e st).ongoingCalls = some p := by
  rcases e with ⟨m, d, u⟩ | q | q
  · unfold dedupStep callAjax getPromiseHttp
    rcases hq : List.lookup (getQueueItemId md5 "ajax" u (some (ser m d))) st.ongoingCalls with _ | p2
    · simp only [hq]
      exact lookup_append_of_some h
    · simp only [hq]
      exact h
  · have hne : qid ≠ q := fun he => hs (by rw [he])
    unfold dedupStep
    rw [lookup_filter_ne _ hne]
    exact h
  · have hne : qid ≠ q := fun he => hc (by rw [he])
    unfold dedupStep
    rw [lookup_filter_ne _ hne]
    exact h

theorem dedupRun_preserves (md5 : String → String) (ser : String → String → String)
    (qid : String) (p : Nat) :
    ∀ (evs : List DedupEvent) (st : DedupState),
      List.lookup qid st.ongoingCalls = some p →
      (∀ e ∈ evs, e ≠ DedupEvent.settle qid ∧ e ≠ DedupEvent.cleanupTimeout qid) →
      List.lookup qid (dedupRun md5 ser evs st).ongoingCalls = some p
  | [], st, h, _ => h
  | e :: evs, st, h, hevs => by
    have hstep := dedupStep_preserves md5 ser e st qid p h
      (hevs e (by simp)).1 (hevs e (by simp)).2
    exact dedupRun_preserves md5 ser qid p evs (dedupStep md5 ser e st) hstep
      (fun e2 he2 => hevs e2 (List.mem_cons_of_mem _ he2))

/-- C1 counterexample: read over every web-service call the claim fails on the
REST entry point: CoreWSProvider.call with an idle retry queue routes straight
to performPost, and performPost issues its post unconditionally without
consulting the ongoingCalls map, so two identical REST calls whose second is
issued before the first settles perform two network requests and hold two
distinct promises, and the in-flight map stays empty throughout. -/
theorem claim_C1_rest_path_counterexample :
    (call "core_get_config" [] (some wsPreSets0) true initialWSState).2
      = CallOutcome.posted
          "https://school.example/webservice/rest/server.php?moodlewsrestformat=json"
          [("wsfunction", "core_get_config"), ("wstoken", "token0")]
          { siteUrl := "https://school.example", wsToken := "token0",
            responseExpected := some true, typeExpected := some "object" }
    ∧ (performPostIssue (performPostIssue ⟨[], 0, 0⟩).1).1.networkRequests = 2
    ∧ (performPostIssue (⟨[], 0, 0⟩ : DedupState)).2
        ≠ (performPostIssue (performPostIssue ⟨[], 0, 0⟩).1).2
    ∧ (performPostIssue (performPostIssue ⟨[], 0, 0⟩).1).1.ongoingCalls = [] := by
  refine ⟨?_, ?_, ?_, ?_⟩ <;> first | rfl | decide

/-- C1 as amended, scoped to the entry point that uses the in-flight map: two
callAjax calls with identical method, URL and serialized params,
the second issued while the promise of the first is still stored (no
settlement and no cleanup timeout of that queue item happens in between, other
events being arbitrary), perform exactly one network request between them: the
first call issues it and the second call receives the very same promise and
issues none, so both callers settle with the result of that one request. -/
theorem claim_C1_dedup_shares_inflight_request (md5 : String → String)
    (ser : String → String → String) (method data siteUrl : String)
    (st0 : DedupState) (evs : List DedupEvent)
    (hfresh : List.lookup (getQueueItemId md5 "ajax" siteUrl (some (ser method data)))
        st0.ongoingCalls = none)
    (hevs : ∀ e ∈ evs,
        e ≠ DedupEvent.settle (getQueueItemId md5 "ajax" siteUrl (some (ser method data)))
        ∧ e ≠ DedupEvent.cleanupTimeout (getQueueItemId md5 "ajax" siteUrl (some (ser method data)))) :
    (callAjax md5 ser method data siteUrl st0).1.networkRequests = st0.networkRequests + 1
    ∧ (callAjax md5 ser method data siteUrl
        (dedupRun md5 ser evs (callAjax md5 ser method data siteUrl st0).1)).2
      = (callAjax md5 ser method data siteUrl st0).2
    ∧ (callAjax md5 ser method data siteUrl
        (dedupRun md5 ser evs (callAjax md5 ser method data siteUrl st0).1)).1
      = dedupRun md5 ser evs (callAjax md5 ser method data siteUrl st0).1 := by
  have hfirst : callAjax md5 ser method data siteUrl st0
      = ({ ongoingCalls := st0.ongoingCalls
              ++ [(getQueueItemId md5 "ajax" siteUrl (some (ser method data)), st0.nextPromiseId)],
           nextPromiseId := st0.nextPromiseId + 1,
           networkRequests := st0.networkRequests + 1 }, st0.nextPromiseId) :=
    callAjax_lookup_miss md5 ser method data siteUrl st0 hfresh
  have hstored : List.lookup (getQueueItemId md5 "ajax" siteUrl (some (ser method data)))
      (callAjax md5 ser method data siteUrl st0).1.ongoingCalls = some st0.nextPromiseId := by
    rw [hfirst]
    exact lookup_append_fresh hfresh
  have hkept := dedupRun_preserves md5 ser _ _ evs _ hstored hevs
  have hsecond : callAjax md5 ser method data siteUrl
      (dedupRun md5 ser evs (callAjax md5 ser method data siteUrl st0).1)
      = (dedupRun md5 ser evs (callAjax md5 ser method data siteUrl st0).1, st0.nextPromiseId) :=
    callAjax_lookup_hit md5 ser method data siteUrl _ st0.nextPromiseId hkept
  refine ⟨by rw [hfirst], ?_, ?_⟩
  · rw [hsecond, hfirst]
  · rw [hsecond]

/-- Witness for C1: a concrete pair of identical ajax calls around an unrelated
interleaved call shares one promise and one network request. -/
theorem claim_C1_dedup_shares_inflight_request_witness :
    (callAjax (fun s => s) (fun m d => m ++ "|" ++ d) "core_get_config" "a1" "https://site"
        ⟨[], 0, 0⟩).1.networkRequests = 0 + 1
    ∧ (callAjax (fun s => s) (fun m d => m ++ "|" ++ d) "core_get_config" "a1" "https://site"
        (dedupRun (fun s => s) (fun m d => m ++ "|" ++ d)
          [DedupEvent.ajaxCall "other_method" "a2" "https://site"]
          (callAjax (fun s => s) (fun m d => m ++ "|" ++ d) "core_get_config" "a1" "https://site"
            ⟨[], 0, 0⟩).1)).2
      = (callAjax (fun s => s) (fun m d => m ++ "|" ++ d) "core_get_config" "a1" "https://site"
          ⟨[], 0, 0⟩).2
    ∧ (callAjax (fun s => s) (fun m d => m ++ "|" ++ d) "core_get_config" "a1" "https://site"
        (dedupRun (fun s => s) (fun m d => m ++ "|" ++ d)
          [DedupEvent.ajaxCall "other_method" "a2" "https://site"]
          (callAjax (fun s => s) (fun m d => m ++ "|" ++ d) "core_get_config" "a1" "https://site"
            ⟨[], 0, 0⟩).1)).1
      = dedupRun (fun s => s) (fun m d => m ++ "|" ++ d)
          [DedupEvent.ajaxCall "other_method" "a2" "https://site"]
          (callAjax (fun s => s) (fun m d => m ++ "|" ++ d) "core_get_config" "a1" "https://site"
            ⟨[], 0, 0⟩).1 :=
  claim_C1_dedup_shares_inflight_request (fun s => s) (fun m d => m ++ "|" ++ d)
    "core_get_config" "a1" "https://site" ⟨[], 0, 0⟩
    [DedupEvent.ajaxCall "other_method" "a2" "https://site"]
    (by rfl) (by decide)

/-! ## Claim about the 429 cooldown and replay timeline -/

/-- A WS call request as issued by a caller of CoreWSProvider.call. -/
structure CallReq where
  method : String
  data : List (String × String)
  preSets : CoreWSPreSets
deriving DecidableEq

/-- Runs a batch of arriving calls through CoreWSProvider.call on an online
device, accumulating the provider state. -/
def runArrivals (reqs : List CallReq) (st : WSState) : WSState :=
  reqs.foldl (fun s r => (call r.method r.data (some r.preSets) true s).1) st

/-- The value of call while retry calls are pending: the arriving call joins
the retry queue instead of being posted. -/
theorem call_joins_queue (r : CallReq) (st : WSState) (h : 0 < st.retryCalls.length) :
    call r.method r.data (some r.preSets) true st
      = ({ st with
            retryCalls := st.retryCalls
              ++ [⟨r.method,
                    r.preSets.siteUrl ++ "/webservice/rest/server.php?moodlewsrestformat=json",
                    r.data ++ [("wsfunction", r.method), ("wstoken", r.preSets.wsToken)],
                    { r.preSets with
                        typeExpected := some (r.preSets.typeExpected.getD "object"),
                        responseExpected := some (r.preSets.responseExpected.getD true) },
                    st.nextDeferredId⟩],
            nextDeferredId := st.nextDeferredId + 1 },
          .queuedDeferred st.nextDeferredId) := by
  unfold call addToRetryQueue
  simp [h]

theorem runArrivals_spec : ∀ (reqs : List CallReq) (st : WSState),
    0 < st.retryCalls.length →
    ((runArrivals reqs st).retryCalls.map RetryCall.method
        = st.retryCalls.map RetryCall.method ++ reqs.map CallReq.method)
    ∧ ((runArrivals reqs st).retryCalls.map RetryCall.deferredId
        = st.retryCalls.map RetryCall.deferredId
          ++ (List.range reqs.length).map (fun i => st.nextDeferredId + i))
    ∧ (runArrivals reqs st).retryTimeout = st.retryTimeout
  | [], st, _ => by simp [runArrivals]
  | r :: rs, st, h => by
    have hstep := call_joins_queue r st h
    have hlen : 0 < (call r.method r.data (some r.preSets) true st).1.retryCalls.length := by
      rw [hstep]
      simp
    obtain ⟨h1, h2, h3⟩ := runArrivals_spec rs _ hlen
    have hrun : runArrivals (r :: rs) st
        = runArrivals rs (call r.method r.data (some r.preSets) true st).1 := rfl
    rw [hrun]
    refine ⟨?_, ?_, ?_⟩
    · rw [h1, hstep]
      simp
    · rw [h2, hstep]
      simp only [List.map_append, List.map_cons, List.map_nil, List.length_cons,
        List.range_succ_eq_map, List.map_map, List.append_assoc, List.singleton_append,
        Nat.add_zero]
      have hmaps : List.map (fun i => st.nextDeferredId + 1 + i) (List.range rs.length)
          = List.map ((fun i => st.nextDeferredId + i) ∘ Nat.succ) (List.range rs.length) := by
        apply List.map_congr_left
        intro i hi
        simp only [Function.comp_apply]
        omega
      rw [hmaps]
    · rw [h3, hstep]

theorem processRetryQueueEvents_length (now : Nat) (q : List RetryCall) :
    (processRetryQueueEvents now q).length = q.length := by
  induction q generalizing now with
  | nil => rfl
  | cons c rest ih =>
    unfold processRetryQueueEvents
    simp [ih]

theorem processRetryQueueEvents_map_snd (now : Nat) (q : List RetryCall) :
    (processRetryQueueEvents now q).map Prod.snd = q := by
  induction q generalizing now with
  | nil => rfl
  | cons c rest ih =>
    unfold processRetryQueueEvents
    simp [ih]

theorem processRetryQueueEvents_get : ∀ (q : List RetryCall) (now i : Nat)
    (hq : i < q.length) (he : i < (processRetryQueueEvents now q).length),
    (processRetryQueueEvents now q).get ⟨i, he⟩ = (now + 200 * (i + 1), q.get ⟨i, hq⟩)
  | [], now, i, hq, _ => absurd hq (by simp)
  | c :: rest, now, 0, _, _ => rfl
  | c :: rest, now, i + 1, hq, he => by
    have hq2 : i < rest.length := by
      simp at hq
      omega
    have he2 : i < (processRetryQueueEvents (now + 200) rest).length := by
      rw [processRetryQueueEvents_length]
      exact hq2
    have ih := processRetryQueueEvents_get rest (now + 200) i hq2 he2
    show ((now + 200, c) :: processRetryQueueEvents (now + 200) rest).get ⟨i + 1, _⟩ = _
    rw [List.get_cons_succ, ih]
    have harith : now + 200 + 200 * (i + 1) = now + 200 * (i + 1 + 1) := by ring
    rw [harith, List.get_cons_succ]

theorem processRetryQueueEvents_after_aux : ∀ (q : List RetryCall) (now : Nat),
    ∀ ev ∈ processRetryQueueEvents now q, now + 200 ≤ ev.1
  | [], now, ev, hev => by simp [processRetryQueueEvents] at hev
  | c :: rest, now, ev, hev => by
    have hsplit : ev = (now + 200, c) ∨ ev ∈ processRetryQueueEvents (now + 200) rest := by
      simpa [processRetryQueueEvents] using hev
    rcases hsplit with h | h
    · simp [h]
    · have := processRetryQueueEvents_after_aux rest (now + 200) ev h
      omega

theorem processRetryQueueEvents_after (now : Nat) (q : List RetryCall) :
    ∀ ev ∈ processRetryQueueEvents now q, now < ev.1 := fun ev hev => by
  have := processRetryQueueEvents_after_aux q now ev hev
  omega

/-- C4 counterexample: the claim reads the cooldown as the Retry-After value
whenever the header is present and parsable, with 5 only for a missing or
unparsable header; but for the parsable header 0 the code uses 5, because the
or-else fallback also triggers on the falsy parse result 0. -/
theorem claim_C4_cooldown_counterexample :
    parseIntJS (some "0") = some 0
    ∧ claimedRetryCooldown (some "0") = 0
    ∧ computeRetryTimeout (some "0") = 5
    ∧ computeRetryTimeout (some "0") ≠ claimedRetryCooldown (some "0") := by
  refine ⟨?_, ?_, ?_, ?_⟩ <;> decide

/-- C4 as amended: the cooldown is Retry-After seconds when the header parses
to a nonzero value and 5 when the header is missing, unparsable, or parses to
0. With that cooldown, after a 429 on an idle provider a single timer is
started; calls arriving while the retry queue is non-empty join the queue in
arrival order behind the failed call instead of bypassing it; when the timer
fires, the queue is replayed one call at a time in FIFO arrival order, each
replay strictly after the cooldown expiry, consecutive replays 200 ms apart,
and the i-th replay carries the deferred promise handed to the i-th caller. -/
theorem claim_C4_amended_retry_timeline (header : Option String)
    (first : CallReq) (arrivals : List CallReq)
    (hT : 0 < computeRetryTimeout header) :
    ((parseIntJS header = none ∨ parseIntJS header = some 0) →
        computeRetryTimeout header = 5)
    ∧ (∀ n, parseIntJS header = some n → n ≠ 0 → computeRetryTimeout header = n)
    ∧ ((performPostOnError first.method first.preSets.siteUrl first.data first.preSets
          (some 429) header initialWSState).2.2 = some (computeRetryTimeout header))
    ∧ ((runArrivals arrivals
          (performPostOnError first.method first.preSets.siteUrl first.data first.preSets
            (some 429) header initialWSState).1).retryCalls.map RetryCall.method
        = first.method :: arrivals.map CallReq.method)
    ∧ ((runArrivals arrivals
          (performPostOnError first.method first.preSets.siteUrl first.data first.preSets
            (some 429) header initialWSState).1).retryCalls.map RetryCall.deferredId
        = List.range (arrivals.length + 1))
    ∧ ((processRetryQueueEvents ((computeRetryTimeout header).toNat * 1000)
          (runArrivals arrivals
            (performPostOnError first.method first.preSets.siteUrl first.data first.preSets
              (some 429) header initialWSState).1).retryCalls).map Prod.snd
        = (runArrivals arrivals
            (performPostOnError first.method first.preSets.siteUrl first.data first.preSets
              (some 429) header initialWSState).1).retryCalls)
    ∧ (∀ ev ∈ processRetryQueueEvents ((computeRetryTimeout header).toNat * 1000)
          (runArrivals arrivals
            (performPostOnError first.method first.preSets.siteUrl first.data first.preSets
              (some 429) header initialWSState).1).retryCalls,
        (computeRetryTimeout header).toNat * 1000 < ev.1)
    ∧ (∀ (i : Nat) (h1 : i + 1 < (processRetryQueueEvents
            ((computeRetryTimeout header).toNat * 1000)
            (runArrivals arrivals
              (performPostOnError first.method first.preSets.siteUrl first.data first.preSets
                (some 429) header initialWSState).1).retryCalls).length)
          (h0 : i < (processRetryQueueEvents ((computeRetryTimeout header).toNat * 1000)
            (runArrivals arrivals
              (performPostOnError first.method first.preSets.siteUrl first.data first.preSets
                (some 429) header initialWSState).1).retryCalls).length),
        ((processRetryQueueEvents ((computeRetryTimeout header).toNat * 1000)
            (runArrivals arrivals
              (performPostOnError first.method first.preSets.siteUrl first.data first.preSets
                (some 429) header initialWSState).1).retryCalls).get ⟨i + 1, h1⟩).1
          = ((processRetryQueueEvents ((computeRetryTimeout header).toNat * 1000)
              (runArrivals arrivals
                (performPostOnError first.method first.preSets.siteUrl first.data first.preSets
                  (some 429) header initialWSState).1).retryCalls).get ⟨i, h0⟩).1 + 200) := by
  have herr : performPostOnError first.method first.preSets.siteUrl first.data first.preSets
      (some 429) header initialWSState
      = ({ retryCalls := [⟨first.method, first.preSets.siteUrl, first.data, first.preSets, 0⟩],
           retryTimeout := computeRetryTimeout header, nextDeferredId := 1 },
         .queuedDeferred 0, some (computeRetryTimeout header)) := by
    rfl
  have hlen1 : 0 < (performPostOnError first.method first.preSets.siteUrl first.data
      first.preSets (some 429) header initialWSState).1.retryCalls.length := by
    rw [herr]
    simp
  obtain ⟨hm, hd, _⟩ := runArrivals_spec arrivals _ hlen1
  refine ⟨?_, ?_, ?_, ?_, ?_, ?_, ?_, ?_⟩
  · intro hcase
    unfold computeRetryTimeout
    rcases hcase with hc | hc <;> rw [hc] <;> simp
  · intro n hn hn0
    unfold computeRetryTimeout
    rw [hn]
    simp [hn0]
  · rw [herr]
  · rw [hm, herr]
    rfl
  · rw [hd, herr, List.range_succ_eq_map]
    simp only [List.map_cons, List.map_nil, List.singleton_append, List.cons.injEq, true_and]
    apply List.map_congr_left
    intro i hi
    omega
  · exact processRetryQueueEvents_map_snd _ _
  · exact processRetryQueueEvents_after _ _
  · intro i h1 h0
    have hq1 : i + 1 < (runArrivals arrivals
        (performPostOnError first.method first.preSets.siteUrl first.data first.preSets
          (some 429) header initialWSState).1).retryCalls.length := by
      rw [processRetryQueueEvents_length] at h1
      exact h1
    have hq0 : i < (runArrivals arrivals
        (performPostOnError first.method first.preSets.siteUrl first.data first.preSets
          (some 429) header initialWSState).1).retryCalls.length := by
      omega
    rw [processRetryQueueEvents_get _ _ _ hq1 h1, processRetryQueueEvents_get _ _ _ hq0 h0]
    omega

/-- Witness for C4 as amended: a concrete 429 with Retry-After 3 followed by
one more arriving call: the cooldown is 3 seconds and the replays run at
3200 ms and 3400 ms in arrival order. -/
theorem claim_C4_amended_retry_timeline_witness :
    0 < computeRetryTimeout (some "3")
    ∧ ((runArrivals [⟨"m2", [], wsPreSets0⟩]
          (performPostOnError "m1" "https://school.example/ws" [] wsPreSets0
            (some 429) (some "3") initialWSState).1).retryCalls.map RetryCall.method
        = ["m1", "m2"])
    ∧ ((runArrivals [⟨"m2", [], wsPreSets0⟩]
          (performPostOnError "m1" "https://school.example/ws" [] wsPreSets0
            (some 429) (some "3") initialWSState).1).retryCalls.map RetryCall.deferredId
        = [0, 1])
    ∧ ((processRetryQueueEvents ((computeRetryTimeout (some "3")).toNat * 1000)
          (runArrivals [⟨"m2", [], wsPreSets0⟩]
            (performPostOnError "m1" "https://school.example/ws" [] wsPreSets0
              (some 429) (some "3") initialWSState).1).retryCalls).map Prod.fst
        = [3200, 3400]) := by
  have h := claim_C4_amended_retry_timeline (some "3")
    ⟨"m1", [], { wsPreSets0 with siteUrl := "https://school.example/ws" }⟩
    [⟨"m2", [], wsPreSets0⟩] (by decide)
  refine ⟨by decide, ?_, ?_, by rfl⟩
  · have h4 := h.2.2.2.1
    simpa using h4
  · have h5 := h.2.2.2.2.1
    simpa using h5

end Moodleapp